import Mathlib

/-!
Shallow embedding of the AD5933 impedance-chip driver code in this
repository: the CircuitPython variant (ad5933.py) and the MicroPython
variant (ad5933-driver.py). The byte bus is modelled as an explicit
state machine; a raised transport exception is modelled as a false or
none result of the corresponding bus primitive. Python floats are
modelled as exact rationals: every quantity the theorems evaluate is
exactly representable in binary floating point, and no rounding tie
arises at any evaluated value, so the rational model agrees with the
float computation at every input the development touches.
-/

namespace AD5933

/-- A byte-addressed register bus (I2C in the source). A write result of
false models the transport call raising (OSError in the MicroPython
variant, any exception in the CircuitPython variant); a read result of
none models the same. The parameter sigma threads the transport state. -/
structure Bus (σ : Type) where
  write : σ → Nat → List Nat → Bool × σ
  read : σ → Nat → Nat → Option (List Nat) × σ

/-- One bus interaction, as the debug tracing in the source records it. -/
inductive Event where
  | wr (reg : Nat) (data : List Nat) (ok : Bool)
  | rd (reg : Nat) (n : Nat) (res : Option (List Nat))
deriving DecidableEq

/-- Transport state paired with the trace of bus interactions so far. -/
abbrev St (σ : Type) := σ × List Event

variable {σ : Type}

/-- The fixed-size read buffer, bytearray(nbytes) in the source: a
successful read always hands back exactly n bytes. -/
def buffer (n : Nat) (bs : List Nat) : List Nat := (bs ++ List.replicate n 0).take n

/-- One raw transport write attempt, recorded in the trace. -/
def busWrite (b : Bus σ) (st : St σ) (reg : Nat) (data : List Nat) : Bool × St σ :=
  let p := b.write st.1 reg data
  (p.1, (p.2, st.2 ++ [Event.wr reg data p.1]))

/-- One raw transport read attempt, recorded in the trace. -/
def busRead (b : Bus σ) (st : St σ) (reg : Nat) (n : Nat) : Option (List Nat) × St σ :=
  match b.read st.1 reg n with
  | (none, s) => (none, (s, st.2 ++ [Event.rd reg n none]))
  | (some bs, s) => (some (buffer n bs), (s, st.2 ++ [Event.rd reg n (some (buffer n bs))]))

/-- What an uncaught Python exception escaping the generator looks like
to the consumer. -/
inductive PyErr where
  | typeError
deriving DecidableEq

def REG_CONTROL : Nat := 0x80
def REG_START_FREQ : Nat := 0x82
def REG_FREQ_INCR : Nat := 0x85
def REG_NUM_INCR : Nat := 0x88
def REG_SETTLE_CYCLES : Nat := 0x8A
def REG_STATUS : Nat := 0x8F
def REG_TEMP_DATA : Nat := 0x92
def REG_REAL : Nat := 0x94
def REG_IMAG : Nat := 0x96
def CTRL_INIT_START : Nat := 0x10
def CTRL_START_SWEEP : Nat := 0x20
def CTRL_INCR_FREQ : Nat := 0x30
def CTRL_POWER_DOWN : Nat := 0xA0
def CTRL_STANDBY : Nat := 0xB0

/-- ad5933.py _write_reg (lines 51 to 66): bytearray([reg] + data) raises
ValueError inside the try block when a byte is out of range, which the
handler converts to False before any bus interaction takes place;
otherwise a single transport attempt, False on transport fault. -/
def pyWriteReg (b : Bus σ) (st : St σ) (reg : Nat) (data : List Nat) : Bool × St σ :=
  if data.all (fun x => decide (x < 256)) then busWrite b st reg data
  else (false, st)

/-- ad5933.py _read_reg (lines 68 to 80): a single transport attempt,
none on transport fault. -/
def pyReadReg (b : Bus σ) (st : St σ) (reg : Nat) (n : Nat) : Option (List Nat) × St σ :=
  busRead b st reg n

/-- Python int() applied to a real value: truncation toward zero. -/
def pyInt (q : ℚ) : Int := if 0 ≤ q then ⌊q⌋ else ⌈q⌉

/-- start_code and incr_code: int((f * (2 ** 27)) / clock_freq) with
clock_freq = 4e6, the 16 MHz clock divided by 4 (both variants). -/
def frequencyCode (f : ℚ) : Int := pyInt (f * 2 ^ 27 / 4000000)

/-- Python (c >> k) & 0xFF on an int: floor shift, then low-byte mask. -/
def pyByte (c : Int) (k : Nat) : Nat := ((c.ediv (2 ^ k)).emod 256).toNat

/-- The three bytes [(code >> 16) & 0xFF, (code >> 8) & 0xFF, code & 0xFF]
written to a frequency register, most significant first. -/
def freqCodeBytes (c : Int) : List Nat := [pyByte c 16, pyByte c 8, pyByte c 0]

/-- Python int.from_bytes(bs, big-endian, signed=True). -/
def fromBytesBESigned (bs : List Nat) : Int :=
  let v : Int := bs.foldl (fun a x => a * 256 + (x : Int)) 0
  let m : Int := (256 : Int) ^ bs.length
  if 2 * v ≥ m then v - m else v

/-- Python raw_val & 0x2000 is nonzero exactly when bit 13 of the
twos-complement representation is set: floor-shift right by 13, mod 2. -/
def pyBit13 (v : Int) : Bool := (v.ediv 8192).emod 2 == 1

/-- Round to the nearest integer, ties to even (Python round). -/
def roundHalfEven (q : ℚ) : Int :=
  let f := ⌊q⌋
  let r := q - (f : ℚ)
  if r < 1 / 2 then f
  else if 1 / 2 < r then f + 1
  else if f % 2 = 0 then f else f + 1

/-- Python round(x, 2). -/
def pyRound2 (q : ℚ) : ℚ := (roundHalfEven (q * 100) : ℚ) / 100

/-- The status poll loop of measure_temperature (ad5933.py lines 90 to
103). A failed status read subscripts None, raising TypeError, which the
outer handler converts to the None sentinel; a failed temperature-data
read is falsy and falls through to the next poll iteration. -/
def tempPoll (b : Bus σ) : Nat → St σ → Option ℚ × St σ
  | 0, st => (none, st)
  | k + 1, st =>
    match pyReadReg b st REG_STATUS 1 with
    | (none, st1) => (none, st1)
    | (some sbs, st1) =>
      if (sbs.headD 0) &&& 0x01 ≠ 0 then
        match pyReadReg b st1 REG_TEMP_DATA 2 with
        | (none, st2) => tempPoll b k st2
        | (some rbs, st2) =>
          if rbs = [] then tempPoll b k st2
          else
            let rawVal := fromBytesBESigned rbs
            let tempC : ℚ :=
              if pyBit13 rawVal then ((rawVal : ℚ) - 16384) / 32 else (rawVal : ℚ) / 32
            (some (pyRound2 tempC), st2)
      else tempPoll b k st1

/-- ad5933.py measure_temperature (lines 82 to 106). -/
def measure_temperature (b : Bus σ) (st : St σ) : Option ℚ × St σ :=
  let st0 := (pyWriteReg b st REG_CONTROL [0x90]).2
  tempPoll b 20 st0

/-- The range_bits dictionary with default (0, 0). -/
def rangeBits : Nat → Nat × Nat
  | 1 => (0, 0)
  | 2 => (0, 1)
  | 3 => (1, 0)
  | 4 => (1, 1)
  | _ => (0, 0)

/-- ad5933.py configure_sweep (lines 108 to 167). Every _write_reg result
is discarded by the source, so the function reaches its final return True
on every transport; the except branch returning False is unreachable,
because _write_reg converts every transport exception to a boolean. -/
def configure_sweep (b : Bus σ) (st : St σ) (startF incrF : ℚ) (numIncr : Nat)
    (pga : Bool) (rc : Nat) : Bool × St σ :=
  let st1 := (pyWriteReg b st REG_CONTROL [CTRL_POWER_DOWN]).2
  let st2 := (pyWriteReg b st1 REG_CONTROL [CTRL_STANDBY]).2
  let rb := rangeBits rc
  let ctrlHigh := (0xA <<< 4) ||| ((rb.1 &&& 1) <<< 2) ||| ((rb.2 &&& 1) <<< 1) |||
    (if pga then 1 else 0)
  let st3 := (pyWriteReg b st2 REG_CONTROL [ctrlHigh, 0x00]).2
  let st4 := (pyWriteReg b st3 REG_START_FREQ (freqCodeBytes (frequencyCode startF))).2
  let st5 := (pyWriteReg b st4 REG_FREQ_INCR (freqCodeBytes (frequencyCode incrF))).2
  let st6 := (pyWriteReg b st5 REG_NUM_INCR [(numIncr >>> 8) &&& 0xFF, numIncr &&& 0xFF]).2
  let st7 := (pyWriteReg b st6 REG_SETTLE_CYCLES [0x00, 0x0F]).2
  (true, st7)

/-- ad5933.py configure_settling_time (lines 169 to 174):
msb = (multiply_by & 0x3) << 9 | (cycles >> 8) & 0x1, lsb = cycles & 0xFF,
then _write_reg(REG_SETTLE_CYCLES, [msb, lsb]). -/
def configure_settling_time (b : Bus σ) (st : St σ) (cycles multiplyBy : Nat) :
    Bool × St σ :=
  let msb := ((multiplyBy &&& 0x3) <<< 9) ||| ((cycles >>> 8) &&& 0x1)
  let lsb := cycles &&& 0xFF
  pyWriteReg b st REG_SETTLE_CYCLES [msb, lsb]

/-- One yielded data point (freq, real, imag, magnitude). The source
magnitude is sqrt(real ** 2 + imag ** 2); the embedding records the
radicand, which determines it and is what every claim touches. -/
structure Sample where
  freq : ℚ
  re : Int
  im : Int
  magSq : Int
deriving DecidableEq

/-- The per-point readiness poll of sweep_generator (ad5933.py lines 198
to 202): up to 20 status reads, break on bit 1; when the budget runs out
the loop falls through to the data read regardless. A failed status read
subscripts None and raises TypeError out of the generator. -/
def pollLoop (b : Bus σ) : Nat → St σ → Except (PyErr × St σ) (St σ)
  | 0, st => .ok st
  | k + 1, st =>
    match pyReadReg b st REG_STATUS 1 with
    | (none, st1) => .error (.typeError, st1)
    | (some sbs, st1) =>
      if (sbs.headD 0) &&& 0x02 ≠ 0 then .ok st1
      else pollLoop b k st1

/-- One sweep point (ad5933.py lines 196 to 214): poll, read the real and
imaginary registers, decode signed big-endian, compute the host-side
frequency start + i * incr. int.from_bytes(None) raises TypeError, after
both reads have been issued. -/
def sweepPoint (b : Bus σ) (st : St σ) (i : Nat) (startF incrF : ℚ) :
    Except (PyErr × St σ) (Sample × St σ) :=
  match pollLoop b 20 st with
  | .error e => .error e
  | .ok st1 =>
    let a := pyReadReg b st1 REG_REAL 2
    let c := pyReadReg b a.2 REG_IMAG 2
    match a.1 with
    | none => .error (.typeError, c.2)
    | some rbs =>
      match c.1 with
      | none => .error (.typeError, c.2)
      | some ibs =>
        let re := fromBytesBESigned rbs
        let im := fromBytesBESigned ibs
        .ok (⟨startF + (i : ℚ) * incrF, re, im, re ^ 2 + im ^ 2⟩, c.2)

/-- The per-point loop of sweep_generator, run to exhaustion by a
consumer that keeps pulling (ad5933.py lines 196 to 219): countdown k
points starting at index i; after yielding, the increment-frequency
control code is written only while i < numIncr, and its result is
discarded. An escaped exception ends the pulled sequence with its
samples so far and the error the consumer sees. -/
def sweepLoop (b : Bus σ) (startF incrF : ℚ) (numIncr : Nat) :
    Nat → Nat → St σ → List Sample × Option PyErr × St σ
  | 0, _, st => ([], none, st)
  | k + 1, i, st =>
    match sweepPoint b st i startF incrF with
    | .error e => ([], some e.1, e.2)
    | .ok p =>
      let st2 := if i < numIncr then (pyWriteReg b p.2 REG_CONTROL [CTRL_INCR_FREQ]).2
        else p.2
      let r := sweepLoop b startF incrF numIncr k (i + 1) st2
      (p.1 :: r.1, r.2.1, r.2.2)

/-- The suspended generator frame produced by calling sweep_generator:
Python runs no body statement of a generator function at call time, it
only captures the arguments. -/
structure SweepGen where
  start : ℚ
  incr : ℚ
  numIncr : Nat
  pga : Bool
  rangeCode : Nat
deriving DecidableEq

/-- Calling ad5933.py sweep_generator (line 176): builds the suspended
frame and performs no bus interaction at all. -/
def sweepGeneratorCall (b : Bus σ) (st : St σ) (startF incrF : ℚ) (numIncr : Nat)
    (pga : Bool) (rc : Nat) : SweepGen × St σ :=
  (⟨startF, incrF, numIncr, pga, rc⟩, st)

/-- Running the generator body to exhaustion (first pull onward,
ad5933.py lines 176 to 219): configure, init with start frequency, start
sweep, then the per-point loop over numIncr + 1 points. -/
def sweepRun (b : Bus σ) (st : St σ) (g : SweepGen) : List Sample × Option PyErr × St σ :=
  let c := configure_sweep b st g.start g.incr g.numIncr g.pga g.rangeCode
  if c.1 = false then ([], none, c.2)
  else
    let stA := (pyWriteReg b c.2 REG_CONTROL [CTRL_INIT_START]).2
    let stB := (pyWriteReg b stA REG_CONTROL [CTRL_START_SWEEP]).2
    sweepLoop b g.start g.incr g.numIncr (g.numIncr + 1) 0 stB

/-- ad5933-driver.py _write_reg retry loop (lines 31 to 43): fuel is the
remaining retries counter; an attempt that raises OSError decrements it,
and when it reaches zero the failure is returned as a value. -/
def drvWriteAttempts (b : Bus σ) (reg : Nat) (data : List Nat) :
    Nat → St σ → Bool × St σ
  | 0, st => (false, st)
  | r + 1, st =>
    let a := busWrite b st reg data
    if a.1 then (true, a.2)
    else if r = 0 then (false, a.2)
    else drvWriteAttempts b reg data r a.2

/-- ad5933-driver.py _write_reg (lines 22 to 43), with retries = 3. The
bytes() normalization of the payload happens before the loop; every call
in the driver passes in-range literal bytes. -/
def drvWriteReg (b : Bus σ) (st : St σ) (reg : Nat) (data : List Nat) : Bool × St σ :=
  drvWriteAttempts b reg data 3 st

/-- ad5933-driver.py _read_reg retry loop (lines 46 to 59). -/
def drvReadAttempts (b : Bus σ) (reg n : Nat) : Nat → St σ → Option (List Nat) × St σ
  | 0, st => (none, st)
  | r + 1, st =>
    let a := busRead b st reg n
    match a.1 with
    | some bs => (some bs, a.2)
    | none => if r = 0 then (none, a.2) else drvReadAttempts b reg n r a.2

/-- ad5933-driver.py _read_reg (lines 45 to 59), with retries = 3. -/
def drvReadReg (b : Bus σ) (st : St σ) (reg n : Nat) : Option (List Nat) × St σ :=
  drvReadAttempts b reg n 3 st

/-- ad5933-driver.py reset (lines 61 to 73): control = power-down,
control = standby, each aborting on failure, then a status read whose
mere presence decides the result. -/
def reset (b : Bus σ) (st : St σ) : Bool × St σ :=
  let w1 := drvWriteReg b st REG_CONTROL [0xA0]
  if w1.1 = false then (false, w1.2)
  else
    let w2 := drvWriteReg b w1.2 REG_CONTROL [0xB0]
    if w2.1 = false then (false, w2.2)
    else
      let r := drvReadReg b w2.2 REG_STATUS 1
      (r.1.isSome, r.2)

/-- ad5933-driver.py get_status (lines 75 to 79): a failed (retried)
status read yields 0, otherwise the first byte. -/
def get_status (b : Bus σ) (st : St σ) : Nat × St σ :=
  let r := drvReadReg b st REG_STATUS 1
  match r.1 with
  | none => (0, r.2)
  | some bs => (bs.headD 0, r.2)

/-- ad5933-driver.py configure_frequency (lines 81 to 116): each write is
checked and a failure aborts immediately with False. -/
def configure_frequency (b : Bus σ) (st : St σ) (startF incrF : ℚ) (numPoints : Nat) :
    Bool × St σ :=
  let w1 := drvWriteReg b st REG_START_FREQ (freqCodeBytes (frequencyCode startF))
  if w1.1 = false then (false, w1.2)
  else
    let w2 := drvWriteReg b w1.2 REG_FREQ_INCR (freqCodeBytes (frequencyCode incrF))
    if w2.1 = false then (false, w2.2)
    else
      let w3 := drvWriteReg b w2.2 REG_NUM_INCR [(numPoints >>> 8) &&& 0xFF, numPoints &&& 0xFF]
      if w3.1 = false then (false, w3.2)
      else
        let w4 := drvWriteReg b w3.2 REG_SETTLE_CYCLES [0x00, 0xFF]
        if w4.1 = false then (false, w4.2)
        else (true, w4.2)

/-- Recombine big-endian bytes into the value they encode. -/
def byteRecombine (bs : List Nat) : Nat := bs.foldl (fun a x => a * 256 + x) 0

/-- Recognize a write of the increment-frequency control code. -/
def isIncrWrite : Event → Bool
  | .wr r [d] _ => r == REG_CONTROL && d == CTRL_INCR_FREQ
  | _ => false

/-- Recognize a faulted write to the given register. -/
def isFailedWriteTo (reg : Nat) : Event → Bool
  | .wr r _ ok => r == reg && ok == false
  | _ => false

/-- How many increment-frequency control writes a trace holds. -/
def countIncr (es : List Event) : Nat := es.countP isIncrWrite

/-- Recognize a status-register read. -/
def isStatusRead : Event → Bool
  | .rd r _ _ => r == REG_STATUS
  | _ => false

/-- How many status-register reads a trace holds. -/
def statusReads (es : List Event) : Nat := es.countP isStatusRead

/-- A transport that never faults and answers every read with 0x02 bytes
(sweep-data-ready status). -/
def okBusU : Bus Unit :=
  ⟨fun _ _ _ => (true, ()), fun _ _ n => (some (List.replicate n 2), ())⟩

/-- A transport that faults on every attempt, write and read. -/
def failBusU : Bus Unit :=
  ⟨fun _ _ _ => (false, ()), fun _ _ _ => (none, ())⟩

/-- A transport that never faults and answers every read with 0x00 bytes
(an idle status byte with no bits set). -/
def idleBusU : Bus Unit :=
  ⟨fun _ _ _ => (true, ()), fun _ _ n => (some (List.replicate n 0), ())⟩

/-- A transport whose writes succeed but whose reads all fault. -/
def readFailBusU : Bus Unit :=
  ⟨fun _ _ _ => (true, ()), fun _ _ _ => (none, ())⟩

/-- A transport that faults on every write to the frequency-increment
register and succeeds everywhere else. -/
def incrRegFailBus : Bus Unit :=
  ⟨fun _ reg _ => (if reg = 0x85 then false else true, ()),
   fun _ _ n => (some (List.replicate n 2), ())⟩

/-- A transport that faults exactly on writes of the increment-frequency
control code and succeeds everywhere else. -/
def advWriteFailBus : Bus Unit :=
  ⟨fun _ reg data => (if reg = 0x80 ∧ data = [0x30] then false else true, ()),
   fun _ _ n => (some (List.replicate n 2), ())⟩

/-- A transport reporting temperature-ready status at once and the two
given temperature-data bytes. -/
def tempBus (x y : Nat) : Bus Unit :=
  ⟨fun _ _ _ => (true, ()),
   fun _ reg n => (some (if reg = 0x92 then [x, y] else List.replicate n 1), ())⟩

/-! Evaluation helpers for the frequency code. -/

theorem frequencyCode_30000 : frequencyCode 30000 = 1006632 := by
  unfold frequencyCode pyInt
  rw [if_pos (by norm_num), Int.floor_eq_iff]
  constructor <;> norm_num

theorem frequencyCode_100 : frequencyCode 100 = 3355 := by
  unfold frequencyCode pyInt
  rw [if_pos (by norm_num), Int.floor_eq_iff]
  constructor <;> norm_num

theorem pyByte_natCast (n k : Nat) : pyByte (n : Int) k = n / 2 ^ k % 256 := by
  unfold pyByte
  have h2 : ((2 : Int) ^ k) = ((2 ^ k : Nat) : Int) := by push_cast; ring
  have hdiv : ((n : Int).ediv ((2 ^ k : Nat) : Int)) = ((n / 2 ^ k : Nat) : Int) := rfl
  have hmod : (((n / 2 ^ k : Nat) : Int).emod 256) = ((n / 2 ^ k % 256 : Nat) : Int) := rfl
  rw [h2, hdiv, hmod, Int.toNat_natCast]

theorem byteRecombine_freqCodeBytes (c : Int) (h0 : 0 ≤ c) (h24 : c < 2 ^ 24) :
    byteRecombine (freqCodeBytes c) = c.toNat := by
  obtain ⟨n, rfl⟩ : ∃ n : Nat, c = (n : Int) := ⟨c.toNat, (Int.toNat_of_nonneg h0).symm⟩
  have h24n : n < 2 ^ 24 := by exact_mod_cast h24
  simp only [byteRecombine, freqCodeBytes, pyByte_natCast, List.foldl, Int.toNat_natCast]
  omega

/-- Claim C1, counterexample: the code written for 30 kHz is the
truncation 1006632, not round(30000 * 2 ^ 27 / 4000000) = 1006633: the
source computes int(...), which truncates toward zero, not round(...). -/
theorem c1_trunc_not_round :
    frequencyCode 30000 ≠ round ((30000 : ℚ) * 2 ^ 27 / 4000000) := by
  have h2 : round ((30000 : ℚ) * 2 ^ 27 / 4000000) = 1006633 := by
    rw [round_eq, Int.floor_eq_iff]
    constructor <;> norm_num
  rw [frequencyCode_30000, h2]
  decide

/-- Claim C1, amended: for f in [1 kHz, 100 kHz] the frequency code is
the truncation int(f * 2 ^ 27 / 4000000); it is nonnegative, fits in 24
bits, the three bytes written most-significant first recombine to
exactly the code, and decoding back with code * 4000000 / 2 ^ 27
recovers f within one quantization step 4000000 / 2 ^ 27. -/
theorem c1_frequency_code (f : ℚ) (hlo : 1000 ≤ f) (hhi : f ≤ 100000) :
    0 ≤ frequencyCode f ∧
    frequencyCode f < 2 ^ 24 ∧
    byteRecombine (freqCodeBytes (frequencyCode f)) = (frequencyCode f).toNat ∧
    |(frequencyCode f : ℚ) * 4000000 / 2 ^ 27 - f| ≤ 4000000 / 2 ^ 27 := by
  have hq0 : (0 : ℚ) ≤ f * 2 ^ 27 / 4000000 := by
    apply div_nonneg _ (by norm_num)
    apply mul_nonneg (by linarith) (by norm_num)
  have hcode : frequencyCode f = ⌊f * 2 ^ 27 / 4000000⌋ := by
    unfold frequencyCode pyInt
    rw [if_pos hq0]
  have hup : f * 2 ^ 27 / 4000000 < 2 ^ 24 := by
    have hle : f * 2 ^ 27 / 4000000 ≤ 100000 * 2 ^ 27 / 4000000 := by gcongr
    calc f * 2 ^ 27 / 4000000 ≤ 100000 * 2 ^ 27 / 4000000 := hle
      _ < 2 ^ 24 := by norm_num
  have h0 : 0 ≤ frequencyCode f := by
    rw [hcode]
    exact Int.le_floor.mpr (by exact_mod_cast hq0)
  have h24 : frequencyCode f < 2 ^ 24 := by
    rw [hcode]
    apply Int.floor_lt.mpr
    push_cast
    exact hup
  refine ⟨h0, h24, byteRecombine_freqCodeBytes _ h0 h24, ?_⟩
  have hfl1 : (⌊f * 2 ^ 27 / 4000000⌋ : ℚ) ≤ f * 2 ^ 27 / 4000000 := Int.floor_le _
  have hfl2 : f * 2 ^ 27 / 4000000 - 1 < (⌊f * 2 ^ 27 / 4000000⌋ : ℚ) :=
    Int.sub_one_lt_floor _
  rw [hcode, abs_le]
  constructor <;> nlinarith [hfl1, hfl2]

/-- Claim C1, witness at f = 30 kHz. -/
theorem c1_frequency_code_witness :
    0 ≤ frequencyCode 30000 ∧
    frequencyCode 30000 < 2 ^ 24 ∧
    byteRecombine (freqCodeBytes (frequencyCode 30000)) = (frequencyCode 30000).toNat ∧
    |(frequencyCode 30000 : ℚ) * 4000000 / 2 ^ 27 - 30000| ≤ 4000000 / 2 ^ 27 :=
  c1_frequency_code 30000 (by norm_num) (by norm_num)

/-- Claim C10: calling sweep_generator constructs the suspended frame and
performs no bus interaction whatsoever — the transport state and the
trace after construction are exactly what they were before it, and the
frame records only the arguments. -/
theorem c10_lazy_construction :
    ∀ (σ : Type) (b : Bus σ) (st : St σ) (startF incrF : ℚ) (n : Nat) (p : Bool)
      (rc : Nat),
      (sweepGeneratorCall b st startF incrF n p rc).2 = st ∧
      (sweepGeneratorCall b st startF incrF n p rc).1 = ⟨startF, incrF, n, p, rc⟩ :=
  fun _ _ _ _ _ _ _ _ => ⟨rfl, rfl⟩

/-- Claim C4, counterexample: the CircuitPython _write_reg makes exactly
one transport attempt on an always-faulting transport, not 3 — only the
MicroPython variant retries. -/
theorem c4_single_attempt_counterexample :
    (pyWriteReg failBusU ((), []) REG_CONTROL [0xA0]).1 = false ∧
    (pyWriteReg failBusU ((), []) REG_CONTROL [0xA0]).2.2.length = 1 ∧
    (pyWriteReg failBusU ((), []) REG_CONTROL [0xA0]).2.2.length ≠ 3 := by
  refine ⟨rfl, rfl, by decide⟩

/-- Claim C4, amended: the MicroPython _write_reg, against a transport
that faults on every attempt, makes exactly 3 transport attempts (the
trace gains exactly three faulted write events) and then returns failure
as a value; the CircuitPython variant makes a single attempt and also
returns failure as a value. -/
theorem c4_retry_exhaustion (σ : Type) (b : Bus σ) (st : St σ) (reg : Nat)
    (data : List Nat) (hf : ∀ s r d, (b.write s r d).1 = false) :
    (drvWriteReg b st reg data).1 = false ∧
    (drvWriteReg b st reg data).2.2 = st.2 ++
      [Event.wr reg data false, Event.wr reg data false, Event.wr reg data false] := by
  have hbw : ∀ st' : St σ, busWrite b st' reg data =
      (false, ((b.write st'.1 reg data).2, st'.2 ++ [Event.wr reg data false])) := by
    intro st'
    simp [busWrite, hf]
  unfold drvWriteReg
  unfold drvWriteAttempts
  rw [hbw]
  norm_num
  unfold drvWriteAttempts
  rw [hbw]
  norm_num
  unfold drvWriteAttempts
  rw [hbw]
  simp [List.append_assoc]

/-- Claim C4, witness on an always-faulting transport. -/
theorem c4_retry_exhaustion_witness :
    (drvWriteReg failBusU ((), []) REG_CONTROL [0xA0]).1 = false ∧
    (drvWriteReg failBusU ((), []) REG_CONTROL [0xA0]).2.2 = ([] : List Event) ++
      [Event.wr REG_CONTROL [0xA0] false, Event.wr REG_CONTROL [0xA0] false,
        Event.wr REG_CONTROL [0xA0] false] :=
  c4_retry_exhaustion Unit failBusU ((), []) REG_CONTROL [0xA0] (fun _ _ _ => rfl)

theorem drvReadAttempts_none (b : Bus σ) (reg n : Nat)
    (hf : ∀ s r m, (b.read s r m).1 = none) :
    ∀ (fuel : Nat) (st : St σ), (drvReadAttempts b reg n fuel st).1 = none := by
  intro fuel
  induction fuel with
  | zero => intro st; rfl
  | succ r ih =>
    intro st
    unfold drvReadAttempts busRead
    have h := hf st.1 reg n
    rcases hb : b.read st.1 reg n with ⟨o, s⟩
    rw [hb] at h
    subst h
    by_cases hr : r = 0
    · simp [hr]
    · simp [hr, ih]

/-- Claim C9: when the underlying retried status read fails outright,
get_status returns 0, the same value it returns for a live device whose
status byte has no bits set — at this interface a dead bus and an idle
device are indistinguishable. -/
theorem c9_get_status_conflation (σ : Type) (b : Bus σ) (st : St σ)
    (hf : ∀ s r m, (b.read s r m).1 = none) :
    (get_status b st).1 = 0 ∧ (get_status idleBusU ((), [])).1 = 0 := by
  constructor
  · have h3 := drvReadAttempts_none b REG_STATUS 1 hf 3 st
    simp only [get_status, drvReadReg]
    rw [h3]
  · rfl

/-- Claim C9, witness on a transport whose reads all fault. -/
theorem c9_get_status_conflation_witness :
    (get_status readFailBusU ((), [])).1 = 0 ∧ (get_status idleBusU ((), [])).1 = 0 :=
  c9_get_status_conflation Unit readFailBusU ((), []) (fun _ _ _ => rfl)

/-- Claim C7: with multiplier 1 or 2 the computed msb is 512 or larger
(the shift lands the multiplier bits outside the byte), so the bytearray
construction inside _write_reg raises and the operation returns False
with no bus interaction at all, for every cycle count; with multiplier 4
the masked code (4 & 0x3) = 0 is silently written, so the multiplier
bits on the wire are those of times-1. -/
theorem c7_settling_write_broken :
    ∀ cycles : Nat,
      (configure_settling_time okBusU ((), []) cycles 1).1 = false ∧
      (configure_settling_time okBusU ((), []) cycles 1).2.2 = [] ∧
      (configure_settling_time okBusU ((), []) cycles 2).1 = false ∧
      (configure_settling_time okBusU ((), []) cycles 2).2.2 = [] ∧
      (configure_settling_time okBusU ((), []) 100 4).1 = true ∧
      (configure_settling_time okBusU ((), []) 100 4).2.2 =
        [Event.wr REG_SETTLE_CYCLES [0x00, 0x64] true] := by
  intro cycles
  have hm : (cycles >>> 8) &&& 1 = (cycles >>> 8) % 2 := Nat.and_one_is_mod _
  have e1 : ((1 &&& 3) <<< 9 : Nat) = 512 := by decide
  have e2 : ((2 &&& 3) <<< 9 : Nat) = 1024 := by decide
  have e3 : ((512 : Nat) ||| 1) = 513 := by decide
  have e4 : ((1024 : Nat) ||| 1) = 1025 := by decide
  rcases Nat.mod_two_eq_zero_or_one (cycles >>> 8) with h | h <;>
    refine ⟨?_, ?_, ?_, ?_, by decide, by decide⟩ <;>
    simp [configure_settling_time, pyWriteReg, hm, h, e1, e2, e3, e4]

/-- Claim C3: on a transport that faults exactly on writes to the
frequency-increment register, configure_sweep still returns True (the
source discards every _write_reg result), exactly one faulted write to
that register appears in the trace, and the sweep generator built on
that configuration still yields numIncrements + 1 = 3 samples with no
error, not zero samples. -/
theorem c3_configure_ignores_write_failure :
    (configure_sweep incrRegFailBus ((), []) 30000 100 2 true 1).1 = true ∧
    (configure_sweep incrRegFailBus ((), []) 30000 100 2 true 1).2.2.countP
      (isFailedWriteTo 0x85) = 1 ∧
    (sweepRun incrRegFailBus ((), []) ⟨30000, 100, 2, true, 1⟩).1.length = 3 ∧
    (sweepRun incrRegFailBus ((), []) ⟨30000, 100, 2, true, 1⟩).2.1 = none := by
  refine ⟨rfl, ?_, by decide, by decide⟩
  simp only [configure_sweep, frequencyCode_30000, frequencyCode_100]
  decide

/-- Claim C5: a faulted status read inside the per-point loop escapes the
generator as an uncaught TypeError (the None result is subscripted), so
an I/O fault does reach the consumer unconverted; and a faulted
increment-frequency control write is discarded, so the sweep does not
terminate early — it still yields all 3 samples. -/
theorem c5_fault_escapes_loop :
    (sweepRun readFailBusU ((), []) ⟨30000, 100, 2, true, 1⟩).1 = [] ∧
    (sweepRun readFailBusU ((), []) ⟨30000, 100, 2, true, 1⟩).2.1 =
      some PyErr.typeError ∧
    (sweepRun advWriteFailBus ((), []) ⟨30000, 100, 2, true, 1⟩).1.length = 3 ∧
    (sweepRun advWriteFailBus ((), []) ⟨30000, 100, 2, true, 1⟩).2.1 = none := by
  refine ⟨by decide, by decide, by decide, by decide⟩

theorem pyRound2_temp_neg : pyRound2 ((((16383 : Int) : ℚ) - 16384) / 32) = -3 / 100 := by
  have harg : (((16383 : Int) : ℚ) - 16384) / 32 * 100 = -25 / 8 := by
    push_cast
    norm_num
  have hfl : ⌊(-25 / 8 : ℚ)⌋ = -4 := by
    rw [Int.floor_eq_iff]
    constructor <;> norm_num
  unfold pyRound2 roundHalfEven
  rw [harg, hfl]
  norm_num

theorem pyRound2_temp_pos : pyRound2 (((8191 : Int) : ℚ) / 32) = 25597 / 100 := by
  have harg : ((8191 : Int) : ℚ) / 32 * 100 = 204775 / 8 := by
    push_cast
    norm_num
  have hfl : ⌊(204775 / 8 : ℚ)⌋ = 25596 := by
    rw [Int.floor_eq_iff]
    constructor <;> norm_num
  unfold pyRound2 roundHalfEven
  rw [harg, hfl]
  norm_num

/-- Claim C6, counterexample: on raw temperature bytes 0x3FFF the source
returns round((16383 - 16384) / 32.0, 2) = -0.03, not the unrounded
-0.03125 the claim states. -/
theorem c6_rounding_counterexample :
    (measure_temperature (tempBus 0x3F 0xFF) ((), [])).1 ≠ some (-(1 / 32) : ℚ) ∧
    (measure_temperature (tempBus 0x3F 0xFF) ((), [])).1 = some (-3 / 100 : ℚ) := by
  have h1 : (measure_temperature (tempBus 0x3F 0xFF) ((), [])).1 =
      some (pyRound2 ((((16383 : Int) : ℚ) - 16384) / 32)) := rfl
  rw [h1, pyRound2_temp_neg]
  constructor
  · intro h
    rw [Option.some_inj] at h
    norm_num at h
  · rfl

/-- Claim C6, amended: measure_temperature polls the status register up
to 20 times (a never-ready device produces exactly 20 status reads and
the None sentinel); on success it returns round(tempC, 2) where tempC is
(raw - 16384) / 32 when bit 13 is set and raw / 32 otherwise, so raw
0x1FFF returns 255.97 and raw 0x3FFF returns -0.03. -/
theorem c6_temperature_decode :
    (measure_temperature (tempBus 0x1F 0xFF) ((), [])).1 = some (25597 / 100 : ℚ) ∧
    (measure_temperature (tempBus 0x3F 0xFF) ((), [])).1 = some (-3 / 100 : ℚ) ∧
    (measure_temperature idleBusU ((), [])).1 = none ∧
    statusReads (measure_temperature idleBusU ((), [])).2.2 = 20 := by
  have h1 : (measure_temperature (tempBus 0x1F 0xFF) ((), [])).1 =
      some (pyRound2 (((8191 : Int) : ℚ) / 32)) := rfl
  have h2 : (measure_temperature (tempBus 0x3F 0xFF) ((), [])).1 =
      some (pyRound2 ((((16383 : Int) : ℚ) - 16384) / 32)) := rfl
  refine ⟨?_, ?_, by decide, by decide⟩
  · rw [h1, pyRound2_temp_pos]
  · rw [h2, pyRound2_temp_neg]

/-! Trace accounting helpers for the sweep loop. -/

theorem countIncr_append_one (es : List Event) (e : Event) :
    countIncr (es ++ [e]) = countIncr es + (if isIncrWrite e then 1 else 0) := by
  unfold countIncr
  rw [List.countP_append]
  simp [List.countP_cons]

theorem isIncrWrite_wr_ok (r : Nat) (d : List Nat) (ok : Bool) :
    isIncrWrite (.wr r d ok) = isIncrWrite (.wr r d true) := by
  cases d with
  | nil => rfl
  | cons x t =>
    cases t with
    | nil => rfl
    | cons y t2 => rfl

theorem pyWriteReg_countIncr_ne (b : Bus σ) (st : St σ) (reg : Nat) (data : List Nat)
    (h : isIncrWrite (.wr reg data true) = false) :
    countIncr (pyWriteReg b st reg data).2.2 = countIncr st.2 := by
  unfold pyWriteReg busWrite
  split
  · simp [countIncr_append_one, isIncrWrite_wr_ok, h]
  · rfl

theorem pyWriteReg_countIncr_incr (b : Bus σ) (st : St σ) :
    countIncr (pyWriteReg b st REG_CONTROL [CTRL_INCR_FREQ]).2.2 = countIncr st.2 + 1 := by
  unfold pyWriteReg busWrite
  rw [if_pos (by decide)]
  simp [countIncr_append_one, isIncrWrite_wr_ok]
  decide

theorem configure_sweep_fst (b : Bus σ) (st : St σ) (sF iF : ℚ) (n : Nat) (p : Bool)
    (rc : Nat) : (configure_sweep b st sF iF n p rc).1 = true := rfl

theorem configure_sweep_countIncr (b : Bus σ) (st : St σ) (sF iF : ℚ) (n : Nat)
    (p : Bool) (rc : Nat) :
    countIncr (configure_sweep b st sF iF n p rc).2.2 = countIncr st.2 := by
  simp only [configure_sweep]
  rw [pyWriteReg_countIncr_ne _ _ _ _ (by rfl)]
  rw [pyWriteReg_countIncr_ne _ _ _ _ (by rfl)]
  rw [pyWriteReg_countIncr_ne _ _ _ _ (by rfl)]
  rw [pyWriteReg_countIncr_ne _ _ _ _ (by rfl)]
  rw [pyWriteReg_countIncr_ne _ _ _ _ (by rfl)]
  rw [pyWriteReg_countIncr_ne _ _ _ _ (by decide)]
  rw [pyWriteReg_countIncr_ne _ _ _ _ (by decide)]

theorem read_isSome_exists (b : Bus σ) (hR : ∀ s r m, (b.read s r m).1.isSome = true)
    (s : σ) (r m : Nat) : ∃ bs s2, b.read s r m = (some bs, s2) := by
  have h := hR s r m
  rcases hb : b.read s r m with ⟨o, s2⟩
  rw [hb] at h
  cases o with
  | none => simp at h
  | some bs => exact ⟨bs, s2, rfl⟩

theorem pyReadReg_eq (b : Bus σ) (st : St σ) (reg n : Nat) (bs : List Nat) (s : σ)
    (hb : b.read st.1 reg n = (some bs, s)) :
    pyReadReg b st reg n =
      (some (buffer n bs), (s, st.2 ++ [Event.rd reg n (some (buffer n bs))])) := by
  unfold pyReadReg busRead
  rw [hb]

theorem pollLoop_ok (b : Bus σ) (hR : ∀ s r m, (b.read s r m).1.isSome = true) :
    ∀ (k : Nat) (st : St σ), ∃ st2, pollLoop b k st = .ok st2 ∧
      countIncr st2.2 = countIncr st.2 := by
  intro k
  induction k with
  | zero => intro st; exact ⟨st, rfl, rfl⟩
  | succ k ih =>
    intro st
    obtain ⟨bs, s, hb⟩ := read_isSome_exists b hR st.1 REG_STATUS 1
    have hread := pyReadReg_eq b st REG_STATUS 1 bs s hb
    by_cases hbit : ((buffer 1 bs).headD 0) &&& 0x02 ≠ 0
    · refine ⟨(s, st.2 ++ [Event.rd REG_STATUS 1 (some (buffer 1 bs))]), ?_, ?_⟩
      · simp only [pollLoop, hread]
        rw [if_pos hbit]
      · simp [countIncr_append_one, isIncrWrite]
    · obtain ⟨st2, h1, h2⟩ := ih (s, st.2 ++ [Event.rd REG_STATUS 1 (some (buffer 1 bs))])
      refine ⟨st2, ?_, ?_⟩
      · simp only [pollLoop, hread]
        rw [if_neg hbit]
        exact h1
      · rw [h2]
        simp [countIncr_append_one, isIncrWrite]

theorem sweepPoint_ok (b : Bus σ) (hR : ∀ s r m, (b.read s r m).1.isSome = true)
    (st : St σ) (i : Nat) (sF iF : ℚ) :
    ∃ smp st2, sweepPoint b st i sF iF = .ok (smp, st2) ∧
      smp.freq = sF + (i : ℚ) * iF ∧ countIncr st2.2 = countIncr st.2 := by
  obtain ⟨st1, hp, hc1⟩ := pollLoop_ok b hR 20 st
  obtain ⟨rbs, sa, ha⟩ := read_isSome_exists b hR st1.1 REG_REAL 2
  have hA := pyReadReg_eq b st1 REG_REAL 2 rbs sa ha
  obtain ⟨ibs, sb, hbr⟩ := read_isSome_exists b hR sa REG_IMAG 2
  have hB := pyReadReg_eq b (sa, st1.2 ++ [Event.rd REG_REAL 2 (some (buffer 2 rbs))])
    REG_IMAG 2 ibs sb hbr
  refine ⟨⟨sF + (i : ℚ) * iF, fromBytesBESigned (buffer 2 rbs),
      fromBytesBESigned (buffer 2 ibs),
      fromBytesBESigned (buffer 2 rbs) ^ 2 + fromBytesBESigned (buffer 2 ibs) ^ 2⟩,
    (sb, (st1.2 ++ [Event.rd REG_REAL 2 (some (buffer 2 rbs))]) ++
      [Event.rd REG_IMAG 2 (some (buffer 2 ibs))]), ?_, rfl, ?_⟩
  · simp only [sweepPoint, hp, hA, hB]
  · rw [countIncr_append_one, countIncr_append_one, hc1]
    simp [isIncrWrite]

theorem sweepLoop_run (b : Bus σ) (sF iF : ℚ)
    (hR : ∀ s r m, (b.read s r m).1.isSome = true) :
    ∀ (d i : Nat) (st : St σ), ∃ samples stf,
      sweepLoop b sF iF (i + d) (d + 1) i st = (samples, none, stf) ∧
      samples.length = d + 1 ∧
      (∀ (j : Nat) (hj : j < samples.length),
        (samples.get ⟨j, hj⟩).freq = sF + ((i + j : Nat) : ℚ) * iF) ∧
      countIncr stf.2 = countIncr st.2 + d := by
  intro d
  induction d with
  | zero =>
    intro i st
    obtain ⟨smp, st2, hpt, hfreq, hcnt⟩ := sweepPoint_ok b hR st i sF iF
    refine ⟨[smp], st2, ?_, rfl, ?_, by omega⟩
    · simp only [sweepLoop, hpt]
      rw [if_neg (by omega)]
    · intro j hj
      cases j with
      | zero => simpa using hfreq
      | succ j => simp at hj
  | succ d ih =>
    intro i st
    obtain ⟨smp, st2, hpt, hfreq, hcnt⟩ := sweepPoint_ok b hR st i sF iF
    obtain ⟨rest, stf, hrec, hlen, hget, hcnt2⟩ :=
      ih (i + 1) ((pyWriteReg b st2 REG_CONTROL [CTRL_INCR_FREQ]).2)
    have heq : (i + 1) + d = i + (d + 1) := by omega
    rw [heq] at hrec
    refine ⟨smp :: rest, stf, ?_, by simp [hlen], ?_, ?_⟩
    · rw [sweepLoop]
      simp only [hpt]
      rw [if_pos (by omega), hrec]
    · intro j hj
      cases j with
      | zero => simpa using hfreq
      | succ j =>
        have hj2 : j < rest.length := by
          simp at hj
          omega
        have hr := hget j hj2
        have harg : (i + 1) + j = i + (j + 1) := by omega
        rw [harg] at hr
        simpa [List.get] using hr
    · rw [hcnt2, pyWriteReg_countIncr_incr, hcnt]
      omega

/-- Claim C2: on a fault-free transport, running the sweep generator for
numIncrements = N yields exactly N + 1 samples and no escaped fault, the
i-th frequency is the host-side start + i * increment for every i, and
exactly N increment-frequency control writes appear in the trace — one
after every sample except the last. -/
theorem c2_sweep_point_count (σ : Type) (b : Bus σ) (st : St σ) (sF iF : ℚ)
    (N : Nat) (p : Bool) (rc : Nat)
    (hW : ∀ s r d, (b.write s r d).1 = true)
    (hR : ∀ s r m, (b.read s r m).1.isSome = true) :
    (sweepRun b st ⟨sF, iF, N, p, rc⟩).2.1 = none ∧
    (sweepRun b st ⟨sF, iF, N, p, rc⟩).1.length = N + 1 ∧
    (sweepRun b st ⟨sF, iF, N, p, rc⟩).1.map Sample.freq =
      (List.range (N + 1)).map (fun j : Nat => sF + (j : ℚ) * iF) ∧
    countIncr (sweepRun b st ⟨sF, iF, N, p, rc⟩).2.2.2 = countIncr st.2 + N := by
  have hrun_eq : sweepRun b st ⟨sF, iF, N, p, rc⟩ =
      sweepLoop b sF iF N (N + 1) 0
        ((pyWriteReg b (pyWriteReg b (configure_sweep b st sF iF N p rc).2
          REG_CONTROL [CTRL_INIT_START]).2 REG_CONTROL [CTRL_START_SWEEP]).2) := by
    simp only [sweepRun, configure_sweep_fst]
    simp
  obtain ⟨samples, stf, hloop, hlen, hget, hcnt⟩ :=
    sweepLoop_run b sF iF hR N 0
      ((pyWriteReg b (pyWriteReg b (configure_sweep b st sF iF N p rc).2
        REG_CONTROL [CTRL_INIT_START]).2 REG_CONTROL [CTRL_START_SWEEP]).2)
  rw [Nat.zero_add] at hloop
  have hstB : countIncr ((pyWriteReg b (pyWriteReg b (configure_sweep b st sF iF N p rc).2
      REG_CONTROL [CTRL_INIT_START]).2 REG_CONTROL [CTRL_START_SWEEP]).2).2 =
      countIncr st.2 := by
    rw [pyWriteReg_countIncr_ne _ _ _ _ (by decide)]
    rw [pyWriteReg_countIncr_ne _ _ _ _ (by decide)]
    exact configure_sweep_countIncr b st sF iF N p rc
  rw [hrun_eq, hloop]
  refine ⟨rfl, hlen, ?_, by rw [hcnt, hstB]⟩
  apply List.ext_getElem
  · simp [hlen]
  · intro j h1 h2
    have hj : j < samples.length := by simpa using h1
    have hr := hget j hj
    simp only [Nat.zero_add] at hr
    simp only [List.getElem_map, List.getElem_range]
    simpa [List.get_eq_getElem] using hr

/-- Claim C2, witness: a concrete fault-free transport, N = 2, start
30 kHz, increment 100 Hz. -/
theorem c2_sweep_point_count_witness :
    (sweepRun okBusU ((), []) ⟨30000, 100, 2, true, 1⟩).2.1 = none ∧
    (sweepRun okBusU ((), []) ⟨30000, 100, 2, true, 1⟩).1.length = 2 + 1 ∧
    (sweepRun okBusU ((), []) ⟨30000, 100, 2, true, 1⟩).1.map Sample.freq =
      (List.range (2 + 1)).map (fun j : Nat => 30000 + (j : ℚ) * 100) ∧
    countIncr (sweepRun okBusU ((), []) ⟨30000, 100, 2, true, 1⟩).2.2.2 =
      countIncr ([] : List Event) + 2 :=
  c2_sweep_point_count Unit okBusU ((), []) 30000 100 2 true 1
    (fun _ _ _ => rfl) (fun _ _ _ => rfl)

theorem drvWriteReg_ok (b : Bus σ) (hW : ∀ s r d, (b.write s r d).1 = true)
    (st : St σ) (reg : Nat) (data : List Nat) :
    drvWriteReg b st reg data =
      (true, ((b.write st.1 reg data).2, st.2 ++ [Event.wr reg data true])) := by
  unfold drvWriteReg drvWriteAttempts busWrite
  simp [hW]

theorem drvReadAttempts_trace (b : Bus σ) (reg n : Nat) :
    ∀ (fuel : Nat) (st : St σ), ∃ reads,
      (drvReadAttempts b reg n fuel st).2.2 = st.2 ++ reads ∧
      ∀ e ∈ reads, ∃ res, e = Event.rd reg n res := by
  intro fuel
  induction fuel with
  | zero =>
    intro st
    exact ⟨[], by simp [drvReadAttempts], by simp⟩
  | succ r ih =>
    intro st
    rcases hb : b.read st.1 reg n with ⟨o, s⟩
    cases o with
    | some bs =>
      refine ⟨[Event.rd reg n (some (buffer n bs))], ?_, ?_⟩
      · unfold drvReadAttempts busRead
        rw [hb]
      · intro e he
        simp at he
        exact ⟨_, he⟩
    | none =>
      by_cases hr : r = 0
      · subst hr
        refine ⟨[Event.rd reg n none], ?_, ?_⟩
        · unfold drvReadAttempts busRead
          rw [hb]
          simp
        · intro e he
          simp at he
          exact ⟨_, he⟩
      · obtain ⟨reads, h1, h2⟩ := ih (s, st.2 ++ [Event.rd reg n none])
        refine ⟨Event.rd reg n none :: reads, ?_, ?_⟩
        · unfold drvReadAttempts busRead
          rw [hb]
          simp only [hr, if_false]
          rw [h1]
          simp
        · intro e he
          rw [List.mem_cons] at he
          rcases he with he | he
          · exact ⟨none, he⟩
          · exact h2 e he

theorem reset_eq (b : Bus σ) (st : St σ) (hW : ∀ s r d, (b.write s r d).1 = true) :
    reset b st =
      ((drvReadReg b ((b.write ((b.write st.1 REG_CONTROL [0xA0]).2) REG_CONTROL [0xB0]).2,
          (st.2 ++ [Event.wr REG_CONTROL [0xA0] true]) ++ [Event.wr REG_CONTROL [0xB0] true])
          REG_STATUS 1).1.isSome,
        (drvReadReg b ((b.write ((b.write st.1 REG_CONTROL [0xA0]).2) REG_CONTROL [0xB0]).2,
          (st.2 ++ [Event.wr REG_CONTROL [0xA0] true]) ++ [Event.wr REG_CONTROL [0xB0] true])
          REG_STATUS 1).2) := by
  have h1 := drvWriteReg_ok b hW st REG_CONTROL [0xA0]
  have h2 := drvWriteReg_ok b hW
    ((b.write st.1 REG_CONTROL [0xA0]).2, st.2 ++ [Event.wr REG_CONTROL [0xA0] true])
    REG_CONTROL [0xB0]
  simp only [reset, h1, h2]
  simp

/-- Claim C8: against a transport whose writes succeed, reset performs
control = power-down then control = standby (two successful write events
in that order) followed only by status-register reads, and it returns
success exactly when the retried status read after those two writes
produces a value — the status content is never examined, a present
response suffices. -/
theorem c8_reset_two_phase (σ : Type) (b : Bus σ) (st : St σ)
    (hW : ∀ s r d, (b.write s r d).1 = true) :
    (reset b st).1 =
      (drvReadReg b (drvWriteReg b (drvWriteReg b st REG_CONTROL [0xA0]).2
        REG_CONTROL [0xB0]).2 REG_STATUS 1).1.isSome ∧
    ∃ reads, (reset b st).2.2 =
      st.2 ++ [Event.wr REG_CONTROL [0xA0] true, Event.wr REG_CONTROL [0xB0] true]
        ++ reads ∧
      ∀ e ∈ reads, ∃ res, e = Event.rd REG_STATUS 1 res := by
  have hres := reset_eq b st hW
  have h1 := drvWriteReg_ok b hW st REG_CONTROL [0xA0]
  have h2 := drvWriteReg_ok b hW
    ((b.write st.1 REG_CONTROL [0xA0]).2, st.2 ++ [Event.wr REG_CONTROL [0xA0] true])
    REG_CONTROL [0xB0]
  constructor
  · simp only [hres, h1, h2]
  · obtain ⟨reads, hr1, hr2⟩ := drvReadAttempts_trace b REG_STATUS 1 3
      ((b.write ((b.write st.1 REG_CONTROL [0xA0]).2) REG_CONTROL [0xB0]).2,
        (st.2 ++ [Event.wr REG_CONTROL [0xA0] true]) ++ [Event.wr REG_CONTROL [0xB0] true])
    refine ⟨reads, ?_, hr2⟩
    rw [hres]
    dsimp only
    simp only [drvReadReg]
    rw [hr1]
    simp

/-- Claim C8, witness on a concrete fault-free transport. -/
theorem c8_reset_two_phase_witness :
    (reset okBusU ((), [])).1 =
      (drvReadReg okBusU (drvWriteReg okBusU (drvWriteReg okBusU ((), [])
        REG_CONTROL [0xA0]).2 REG_CONTROL [0xB0]).2 REG_STATUS 1).1.isSome ∧
    (reset okBusU ((), [])).1 = true ∧
    (reset readFailBusU ((), [])).1 = false :=
  ⟨(c8_reset_two_phase Unit okBusU ((), []) (fun _ _ _ => rfl)).1, by decide, by decide⟩
end AD5933
